import Mathlib

/-!
Shallow embedding of `src/scyscrapers.py`, a validator for completed
skyscraper-puzzle boards.

Boards are lists of rows; a Python string becomes a `List Char`.  Python
code that can raise (out-of-range indexing such as `buildings[0]` or
`row[i]`, and `int(c)` on a non-digit character) is modelled with
`Option`: `none` is an uncaught exception, `some b` is a returned
boolean.  Python's short-circuit `and` / early `return` are mirrored by
the order of the nested matches, so a result that Python produces
without evaluating a later (possibly raising) expression is `some b`
here as well.
-/

/-- Python `int(c)` on a single character: the digit value for `'0'`..`'9'`,
an exception (`none`) otherwise. -/
def pyInt (c : Char) : Option Nat :=
  if c.isDigit then some (c.toNat - 48) else none

/-- Loop body of `left_to_right_check`: running pair of (tallest building
seen so far, number of visible buildings); a strictly taller building
becomes the new maximum and is counted as visible. -/
def scanStep (p : Char × Nat) (other : Char) : Char × Nat :=
  if p.1 < other then (other, p.2 + 1) else p

/-- `left_to_right_check(input_line, pivot)`: strips the two edge
characters (`input_line[1:-1]`), folds `scanStep` over the remaining
buildings starting from the first one with count 1, and compares the
final count with `pivot`.  `none` models the `IndexError` that Python
raises on `buildings[0]` when the stripped line is empty. -/
def left_to_right_check (input_line : List Char) (pivot : Nat) : Option Bool :=
  match (input_line.drop 1).dropLast with
  | [] => none
  | b :: rest => some (decide ((rest.foldl scanStep (b, 1)).2 = pivot))

/-- `check_not_finished_board(board)`: `false` as soon as some row
contains the unfilled-cell marker `'?'`, `true` otherwise. -/
def check_not_finished_board (board : List (List Char)) : Bool :=
  board.all (fun row => !(row.contains '?'))

/-- Body of the loop in `check_uniqueness_in_rows` for one row:
`some false` when the stripped segment `row[1:-1]` has a repeated
character (`len(buildings) != len(set(buildings))`) or when both edge
characters are digits; `none` models the `IndexError` of `row[0]` on an
empty row (reached only after the duplicate test, which Python
evaluates first). -/
def uniq_row_ok (r : List Char) : Option Bool :=
  if ((r.drop 1).dropLast).length ≠ ((r.drop 1).dropLast).dedup.length then some false
  else
    match r with
    | [] => none
    | c :: rest => some (!(c.isDigit && ((c :: rest).getLastD '*').isDigit))

/-- The `for row in board` loop of `check_uniqueness_in_rows`: returns
`false` at the first failing row (later rows are not evaluated),
propagates an exception, `true` when every row passes. -/
def uniq_go : List (List Char) → Option Bool
  | [] => some true
  | r :: rs =>
    match uniq_row_ok r with
    | some true => uniq_go rs
    | some false => some false
    | none => none

/-- `check_uniqueness_in_rows(board, row)`: with `row=True` the first and
last board rows are stripped (`board[1:-1]`) before the loop. -/
def check_uniqueness_in_rows (board : List (List Char)) (isRow : Bool) : Option Bool :=
  uniq_go (if isRow then (board.drop 1).dropLast else board)

/-- Body of the loop in `check_horizontal_visibility` for one row: a
right-side hint (`row[0] == '*' and row[-1] != '*'`) reverses the row
before `left_to_right_check`; a left-side hint is checked directly; any
other combination of edge characters leaves the direction `None`, so the
row is skipped.  `none` models `int()` failing on a non-digit hint or
`left_to_right_check` raising. -/
def vis_row_ok (r : List Char) : Option Bool :=
  match r with
  | [] => none
  | c :: rest =>
    if c = '*' ∧ (c :: rest).getLastD '*' ≠ '*' then
      match pyInt ((c :: rest).getLastD '*') with
      | none => none
      | some hint => left_to_right_check ((c :: rest).reverse) hint
    else if c ≠ '*' ∧ (c :: rest).getLastD '*' = '*' then
      match pyInt c with
      | none => none
      | some hint => left_to_right_check (c :: rest) hint
    else some true

/-- The `for row in board` loop of `check_horizontal_visibility`:
`false` at the first failing row, exception propagated, `true` when
every row passes or is skipped. -/
def vis_go : List (List Char) → Option Bool
  | [] => some true
  | r :: rs =>
    match vis_row_ok r with
    | some true => vis_go rs
    | some false => some false
    | none => none

/-- `check_horizontal_visibility(board, row)`: with `row=True` the first
and last board rows are stripped before the loop. -/
def check_horizontal_visibility (board : List (List Char)) (isRow : Bool) : Option Bool :=
  vis_go (if isRow then (board.drop 1).dropLast else board)

/-- Inner loop of `get_board_columns`: the string built by concatenating
`row[i]` over all board rows; `none` models the `IndexError` when some
row is shorter than `i + 1`. -/
def get_column (board : List (List Char)) (i : Nat) : Option (List Char) :=
  match board with
  | [] => some []
  | r :: rest =>
    match r.get? i, get_column rest i with
    | some c, some col => some (c :: col)
    | _, _ => none

/-- Outer loop of `get_board_columns` over the index list. -/
def get_columns_at (board : List (List Char)) : List Nat → Option (List (List Char))
  | [] => some []
  | i :: is =>
    match get_column board i, get_columns_at board is with
    | some col, some cols => some (col :: cols)
    | _, _ => none

/-- `get_board_columns(board)`: one column string for each `i` in
`range(1, 5 + 1)` — the index bounds are hardcoded in the source. -/
def get_board_columns (board : List (List Char)) : Option (List (List Char)) :=
  get_columns_at board [1, 2, 3, 4, 5]

/-- `check_columns(board)`: uniqueness then visibility on the derived
columns, composed with Python's short-circuit `and` (the second
`get_board_columns` call and the visibility check are not evaluated when
the uniqueness check already returned `False`). -/
def check_columns (board : List (List Char)) : Option Bool :=
  match get_board_columns board with
  | none => none
  | some cols =>
    match check_uniqueness_in_rows cols false with
    | none => none
    | some false => some false
    | some true =>
      match get_board_columns board with
      | none => none
      | some cols2 => check_horizontal_visibility cols2 false

/-- `check_skyscrapers` on the list of lines read from the input file:
`check_uniqueness_in_rows(board) and check_columns(board) and
check_horizontal_visibility(board) and
check_horizontal_visibility(get_board_columns(board))`, short-circuit.
Note that the final call omits the `row` argument, so it defaults to
`True` and strips the first and last derived columns. -/
def check_skyscrapers (board : List (List Char)) : Option Bool :=
  match check_uniqueness_in_rows board true with
  | none => none
  | some false => some false
  | some true =>
    match check_columns board with
    | none => none
    | some false => some false
    | some true =>
      match check_horizontal_visibility board true with
      | none => none
      | some false => some false
      | some true =>
        match get_board_columns board with
        | none => none
        | some cols => check_horizontal_visibility cols true

/-- Spec-side scan of §4.1: running maximum and count of visible
buildings, walking the building list left to right. -/
def specScan (maxSoFar : Char) (count : Nat) : List Char → Nat
  | [] => count
  | b :: rest =>
    if maxSoFar < b then specScan b (count + 1) rest else specScan maxSoFar count rest

/-- Spec-side visible-peak count of §4.1: the scan initialized with the
first building as the maximum and count 1. -/
def specVisibleCount : List Char → Nat
  | [] => 0
  | b :: rest => specScan b 1 rest

/-- Spec-side column derivation of §4.4: one line per interior index
position `1 .. N-2` for an `N`-row board, reading that character
position down every board row top-to-bottom. -/
def spec_interior_columns (board : List (List Char)) : List (List Char) :=
  (List.range' 1 (board.length - 2)).map (fun i => board.map (fun r => r.getD i '*'))

/-- The example board of §8:
`['***21**', '412453*', '423145*', '*543215', '*35214*', '*41532*', '*2*1***']`. -/
def demoBoard : List (List Char) :=
  [['*', '*', '*', '2', '1', '*', '*'],
   ['4', '1', '2', '4', '5', '3', '*'],
   ['4', '2', '3', '1', '4', '5', '*'],
   ['*', '5', '4', '3', '2', '1', '5'],
   ['*', '3', '5', '2', '1', '4', '*'],
   ['*', '4', '1', '5', '3', '2', '*'],
   ['*', '2', '*', '1', '*', '*', '*']]

/-- A rule-compliant board (all hints absent, Latin-square interior)
whose cell at row 1, position 1 is the unfilled marker `'?'`. -/
def qBoard : List (List Char) :=
  [['*', '*', '*', '*', '*', '*', '*'],
   ['*', '?', '2', '4', '5', '3', '*'],
   ['*', '2', '3', '1', '4', '5', '*'],
   ['*', '5', '4', '3', '2', '1', '*'],
   ['*', '3', '5', '2', '1', '4', '*'],
   ['*', '4', '1', '5', '3', '2', '*'],
   ['*', '*', '*', '*', '*', '*', '*']]

/-- A 6-row board of 6-character rows (N = 6), used to test the column
deriver away from the 7-character format. -/
def b6 : List (List Char) :=
  [['*', '*', '*', '*', '*', '*'],
   ['*', '1', '2', '3', '4', '*'],
   ['*', '2', '3', '4', '1', '*'],
   ['*', '3', '4', '1', '2', '*'],
   ['*', '4', '1', '2', '3', '*'],
   ['*', '*', '*', '*', '*', '*']]

/-- A board whose single interior row has a duplicated building, so the
row-uniqueness check fails. -/
def badBoard : List (List Char) :=
  [['a'], ['*', '1', '1', '*'], ['b']]

/-! ## Helper lemmas -/

theorem nodup_iff_dedup_length (l : List Char) :
    l.Nodup ↔ l.dedup.length = l.length := by
  constructor
  · intro h
    rw [List.dedup_eq_self.mpr h]
  · intro h
    have he : l.dedup = l := (List.dedup_sublist l).eq_of_length h
    rw [← he]
    exact l.nodup_dedup

theorem vis_go_eq_true_iff (l : List (List Char)) :
    vis_go l = some true ↔ ∀ r ∈ l, vis_row_ok r = some true := by
  induction l with
  | nil => simp [vis_go]
  | cons r rs ih =>
    cases h : vis_row_ok r with
    | none => simp [vis_go, h]
    | some b => cases b <;> simp [vis_go, h, ih]

theorem uniq_go_eq_true_iff (l : List (List Char)) :
    uniq_go l = some true ↔ ∀ r ∈ l, uniq_row_ok r = some true := by
  induction l with
  | nil => simp [uniq_go]
  | cons r rs ih =>
    cases h : uniq_row_ok r with
    | none => simp [uniq_go, h]
    | some b => cases b <;> simp [uniq_go, h, ih]

theorem vis_go_append_false (r : List Char) (l2 : List (List Char))
    (hr : vis_row_ok r = some false) :
    ∀ l1, (∀ p ∈ l1, vis_row_ok p = some true) → vis_go (l1 ++ r :: l2) = some false := by
  intro l1
  induction l1 with
  | nil => intro _; simp [vis_go, hr]
  | cons p l1 ih =>
    intro h1
    have hp : vis_row_ok p = some true := h1 p (by simp)
    simp only [List.cons_append, vis_go, hp]
    exact ih fun q hq => h1 q (by simp [hq])

theorem vis_go_skip (r : List Char) (h : vis_row_ok r = some true) :
    ∀ l1 l2, vis_go (l1 ++ r :: l2) = vis_go (l1 ++ l2) := by
  intro l1 l2
  induction l1 with
  | nil => simp [vis_go, h]
  | cons p l1 ih =>
    cases hp : vis_row_ok p with
    | none => simp [vis_go, hp]
    | some b => cases b <;> simp [vis_go, hp, ih]

theorem check_columns_eq_true_iff (board : List (List Char)) :
    check_columns board = some true ↔
      ∃ cols, get_board_columns board = some cols ∧
        check_uniqueness_in_rows cols false = some true ∧
        check_horizontal_visibility cols false = some true := by
  unfold check_columns
  cases hG : get_board_columns board with
  | none => simp
  | some cols =>
    cases hU : check_uniqueness_in_rows cols false with
    | none => simp [hU]
    | some bu =>
      cases bu with
      | false => simp [hU]
      | true => simp [hU]

theorem check_skyscrapers_eq_true_iff (board : List (List Char)) :
    check_skyscrapers board = some true ↔
      check_uniqueness_in_rows board true = some true ∧
      check_columns board = some true ∧
      check_horizontal_visibility board true = some true ∧
      ∃ cols, get_board_columns board = some cols ∧
        check_horizontal_visibility cols true = some true := by
  unfold check_skyscrapers
  cases hA : check_uniqueness_in_rows board true with
  | none => simp
  | some ba =>
    cases ba with
    | false => simp
    | true =>
      cases hB : check_columns board with
      | none => simp
      | some bb =>
        cases bb with
        | false => simp
        | true =>
          cases hC : check_horizontal_visibility board true with
          | none => simp
          | some bc =>
            cases bc with
            | false => simp
            | true =>
              cases hG : get_board_columns board with
              | none => simp
              | some cols => simp

/-! ## Claim theorems -/

/-- Claim C1, counterexample: on the spec's example board the
orchestrator does not return true. -/
theorem claim_C1_counterexample : check_skyscrapers demoBoard ≠ some true := by decide

/-- Claim C1, amended: for the concrete board `['***21**', '412453*',
'423145*', '*543215', '*35214*', '*41532*', '*2*1***']` the orchestrator
`check_skyscrapers` returns false: the derived column at position 3,
`'2413251'`, has digit hints at both ends, which the column uniqueness
check rejects (in agreement with the first doctest of `check_columns`). -/
theorem claim_C1_holds : check_skyscrapers demoBoard = some false := by decide

/-- Claim C2: the orchestrator returns true exactly when row-uniqueness,
column-uniqueness on the derived columns, row-visibility, and
column-visibility on the derived columns all return true; and it
short-circuits, returning false as soon as the first check fails, even
when a later check would raise. -/
theorem claim_C2_holds (board : List (List Char)) :
    (check_skyscrapers board = some true ↔
      (check_uniqueness_in_rows board true = some true ∧
       ∃ cols, get_board_columns board = some cols ∧
         check_uniqueness_in_rows cols false = some true ∧
         check_horizontal_visibility board true = some true ∧
         check_horizontal_visibility cols false = some true)) ∧
    (check_uniqueness_in_rows board true = some false →
      check_skyscrapers board = some false) := by
  constructor
  · rw [check_skyscrapers_eq_true_iff]
    constructor
    · rintro ⟨hA, hB, hC, -⟩
      obtain ⟨cols, hG, hU, hV⟩ := (check_columns_eq_true_iff board).mp hB
      exact ⟨hA, cols, hG, hU, hC, hV⟩
    · rintro ⟨hA, cols, hG, hU, hC, hV⟩
      refine ⟨hA, (check_columns_eq_true_iff board).mpr ⟨cols, hG, hU, hV⟩, hC, cols, hG, ?_⟩
      have hall : ∀ r ∈ cols, vis_row_ok r = some true :=
        (vis_go_eq_true_iff cols).mp hV
      show vis_go ((cols.drop 1).dropLast) = some true
      refine (vis_go_eq_true_iff _).mpr fun r hr => hall r ?_
      exact (List.dropLast_sublist _).subset.trans (List.drop_subset _ _) hr
  · intro h
    show (match check_uniqueness_in_rows board true with
      | none => none
      | some false => some false
      | some true =>
        match check_columns board with
        | none => none
        | some false => some false
        | some true =>
          match check_horizontal_visibility board true with
          | none => none
          | some false => some false
          | some true =>
            match get_board_columns board with
            | none => none
            | some cols => check_horizontal_visibility cols true) = some false
    rw [h]

/-- Claim C2, witness: on a board whose row-uniqueness check fails, the
orchestrator returns false. -/
theorem claim_C2_witness : check_skyscrapers badBoard = some false :=
  (claim_C2_holds badBoard).2 (by decide)

/-- Claim C5: `left_to_right_check("412453", 4)` returns true and
`left_to_right_check("452453", 5)` returns false. -/
theorem claim_C5_holds :
    left_to_right_check ['4', '1', '2', '4', '5', '3'] 4 = some true ∧
    left_to_right_check ['4', '5', '2', '4', '5', '3'] 5 = some false := by decide

theorem uniq_row_ok_ne_none (r : List Char) (h : r ≠ []) : uniq_row_ok r ≠ none := by
  cases r with
  | nil => exact absurd rfl h
  | cons c rest =>
    rw [uniq_row_ok]
    split
    · simp
    · simp

theorem uniq_go_ne_none (l : List (List Char)) (h : ∀ r ∈ l, r ≠ []) :
    uniq_go l ≠ none := by
  induction l with
  | nil => simp [uniq_go]
  | cons r rs ih =>
    cases hr : uniq_row_ok r with
    | none => exact absurd hr (uniq_row_ok_ne_none r (h r (by simp)))
    | some b =>
      cases b with
      | false => simp [uniq_go, hr]
      | true =>
        simp only [uniq_go, hr]
        exact ih fun q hq => h q (by simp [hq])

theorem uniq_row_ok_eq_true_iff (c : Char) (rest : List Char) :
    uniq_row_ok (c :: rest) = some true ↔
      (((c :: rest).drop 1).dropLast).Nodup ∧
        ¬(c.isDigit = true ∧ ((c :: rest).getLastD '*').isDigit = true) := by
  by_cases hlen : (((c :: rest).drop 1).dropLast).length =
      (((c :: rest).drop 1).dropLast).dedup.length
  · have hnd : (((c :: rest).drop 1).dropLast).Nodup :=
      (nodup_iff_dedup_length _).mpr hlen.symm
    have hnd2 : rest.dropLast.Nodup := by simpa using hnd
    rw [uniq_row_ok, if_neg (not_not_intro hlen)]
    cases hc : c.isDigit <;> cases hl : ((c :: rest).getLastD '*').isDigit <;>
      simp [hc, hl, hnd2]
  · have hnd2 : ¬rest.dropLast.Nodup := fun hn =>
      hlen ((nodup_iff_dedup_length _).mp (by simpa using hn)).symm
    rw [uniq_row_ok, if_pos hlen]
    simp [hnd2]

/-- Claim C3: over the interior rows (first and last board rows
excluded, every interior row nonempty), the uniqueness check returns
true exactly when every interior row has a duplicate-free stripped
segment and does not carry digits at both edges, and it returns false
exactly when some interior row violates one of those two conditions. -/
theorem claim_C3_holds (board : List (List Char))
    (h : ∀ r ∈ (board.drop 1).dropLast, r ≠ []) :
    (check_uniqueness_in_rows board true = some true ↔
      ∀ r ∈ (board.drop 1).dropLast,
        ((r.drop 1).dropLast).Nodup ∧
          ¬((r.headD '*').isDigit = true ∧ (r.getLastD '*').isDigit = true)) ∧
    (check_uniqueness_in_rows board true = some false ↔
      ∃ r ∈ (board.drop 1).dropLast,
        ¬(((r.drop 1).dropLast).Nodup ∧
          ¬((r.headD '*').isDigit = true ∧ (r.getLastD '*').isDigit = true))) := by
  have key : ∀ r ∈ (board.drop 1).dropLast,
      (uniq_row_ok r = some true ↔
        ((r.drop 1).dropLast).Nodup ∧
          ¬((r.headD '*').isDigit = true ∧ (r.getLastD '*').isDigit = true)) := by
    intro r hr
    have hne := h r hr
    cases r with
    | nil => exact absurd rfl hne
    | cons c rest => exact uniq_row_ok_eq_true_iff c rest
  have h1 : check_uniqueness_in_rows board true = some true ↔
      ∀ r ∈ (board.drop 1).dropLast,
        ((r.drop 1).dropLast).Nodup ∧
          ¬((r.headD '*').isDigit = true ∧ (r.getLastD '*').isDigit = true) := by
    rw [show check_uniqueness_in_rows board true =
        uniq_go ((board.drop 1).dropLast) from rfl, uniq_go_eq_true_iff]
    exact ⟨fun H r hr => (key r hr).mp (H r hr), fun H r hr => (key r hr).mpr (H r hr)⟩
  have hnn : check_uniqueness_in_rows board true ≠ none := uniq_go_ne_none _ h
  refine ⟨h1, ?_, ?_⟩
  · intro hf
    by_contra hne
    have hall : ∀ r ∈ (board.drop 1).dropLast,
        ((r.drop 1).dropLast).Nodup ∧
          ¬((r.headD '*').isDigit = true ∧ (r.getLastD '*').isDigit = true) := by
      intro r hr
      by_contra hpr
      exact hne ⟨r, hr, hpr⟩
    have ht := h1.mpr hall
    rw [ht] at hf
    simp at hf
  · rintro ⟨r, hr, hviol⟩
    rcases ho : check_uniqueness_in_rows board true with - | b
    · exact absurd ho hnn
    · cases b with
      | false => rfl
      | true => exact absurd (h1.mp ho r hr) hviol

/-- Claim C3, witness: the interior rows of the example board all pass
the uniqueness check. -/
theorem claim_C3_witness : check_uniqueness_in_rows demoBoard true = some true :=
  ((claim_C3_holds demoBoard (by decide)).1).mpr (by decide)

theorem foldl_scanStep_eq_specScan (rest : List Char) :
    ∀ b k, (rest.foldl scanStep (b, k)).2 = specScan b k rest := by
  induction rest with
  | nil => intro b k; rfl
  | cons o rest ih =>
    intro b k
    by_cases hb : b < o
    · simp only [List.foldl_cons, scanStep, specScan, if_pos hb]
      exact ih o (k + 1)
    · simp only [List.foldl_cons, scanStep, specScan, if_neg hb]
      exact ih b k

/-- Claim C4: `left_to_right_check` returns true exactly when the
spec's left-to-right scan (running maximum initialized to the first
building, count starting at 1, incremented on each strictly taller
building) computes exactly the required hint on the stripped building
segment, and a line with a single building always has visible count 1. -/
theorem claim_C4_holds (input_line : List Char) (pivot : Nat) :
    ((input_line.drop 1).dropLast ≠ [] →
      (left_to_right_check input_line pivot = some true ↔
        specVisibleCount ((input_line.drop 1).dropLast) = pivot)) ∧
    (∀ a b c : Char, left_to_right_check [a, b, c] pivot = some (decide (1 = pivot))) := by
  constructor
  · intro hne
    cases hb : (input_line.drop 1).dropLast with
    | nil => exact absurd hb hne
    | cons b rest =>
      rw [left_to_right_check, hb]
      show some (decide ((rest.foldl scanStep (b, 1)).2 = pivot)) = some true ↔
        specVisibleCount (b :: rest) = pivot
      rw [specVisibleCount, foldl_scanStep_eq_specScan]
      simp
  · intro a b c
    rfl

/-- Claim C4, witness: at the spec's own example line the checker's
verdict coincides with the spec scan reaching the hint 4. -/
theorem claim_C4_witness :
    left_to_right_check ['4', '1', '2', '4', '5', '3'] 4 = some true ↔
      specVisibleCount (((['4', '1', '2', '4', '5', '3'] : List Char).drop 1).dropLast) = 4 :=
  (claim_C4_holds ['4', '1', '2', '4', '5', '3'] 4).1 (by decide)

theorem isDigit_ne_star (c : Char) (h : c.isDigit = true) : c ≠ '*' := by
  intro he
  rw [he] at h
  exact absurd h (by decide)

/-- Claim C6: a row with only a right-side digit hint is reversed before
the line visibility checker, a row with only a left-side digit hint is
checked directly, a row with filler at both ends imposes no constraint,
and one failing row makes the whole visibility validator return false
with the remaining rows never examined. -/
theorem claim_C6_holds (c : Char) (rest : List Char) :
    (c = '*' → ((c :: rest).getLastD '*').isDigit = true →
      vis_row_ok (c :: rest) =
        left_to_right_check ((c :: rest).reverse) (((c :: rest).getLastD '*').toNat - 48)) ∧
    (c.isDigit = true → (c :: rest).getLastD '*' = '*' →
      vis_row_ok (c :: rest) = left_to_right_check (c :: rest) (c.toNat - 48)) ∧
    (c = '*' → (c :: rest).getLastD '*' = '*' → vis_row_ok (c :: rest) = some true) ∧
    (∀ board l1 l2, (board.drop 1).dropLast = l1 ++ (c :: rest) :: l2 →
      (∀ p ∈ l1, vis_row_ok p = some true) → vis_row_ok (c :: rest) = some false →
      check_horizontal_visibility board true = some false) := by
  refine ⟨?_, ?_, ?_, ?_⟩
  · intro hc hd
    have hne : (c :: rest).getLastD '*' ≠ '*' := isDigit_ne_star _ hd
    rw [vis_row_ok, if_pos ⟨hc, hne⟩, pyInt, if_pos hd]
  · intro hd hl
    have hne : c ≠ '*' := isDigit_ne_star c hd
    rw [vis_row_ok, if_neg (fun hand => hand.2 hl), if_pos ⟨hne, hl⟩, pyInt, if_pos hd]
  · intro hc hl
    rw [vis_row_ok, if_neg (fun hand => hand.2 hl), if_neg (fun hand => hand.1 hc)]
  · intro board l1 l2 hsplit hall hfail
    show vis_go ((board.drop 1).dropLast) = some false
    rw [hsplit]
    exact vis_go_append_false _ _ hfail l1 hall

/-- Claim C6, witness: on the example row `'412453*'` (left hint only)
the validator's per-row check is the checker applied to the row
directly with hint 4. -/
theorem claim_C6_witness :
    vis_row_ok ['4', '1', '2', '4', '5', '3', '*'] =
      left_to_right_check ['4', '1', '2', '4', '5', '3', '*'] ('4'.toNat - 48) :=
  (claim_C6_holds '4' ['1', '2', '4', '5', '3', '*']).2.1 (by decide) (by decide)

/-- Claim C10: a line whose first and last characters are both different
from the filler `'*'` is skipped by the visibility validator — its
per-row check is `true` and deleting it from a board does not change the
validator's result. -/
theorem claim_C10_holds (c : Char) (rest : List Char)
    (h1 : c ≠ '*') (h2 : (c :: rest).getLastD '*' ≠ '*') :
    vis_row_ok (c :: rest) = some true ∧
    ∀ l1 l2, check_horizontal_visibility (l1 ++ (c :: rest) :: l2) false =
      check_horizontal_visibility (l1 ++ l2) false := by
  have hrow : vis_row_ok (c :: rest) = some true := by
    rw [vis_row_ok, if_neg (fun hand => h1 hand.1), if_neg (fun hand => h2 hand.2)]
  exact ⟨hrow, fun l1 l2 => vis_go_skip _ hrow l1 l2⟩

/-- Claim C10, witness: the derived column `'2413251'` of the example
board (digit hints at both ends) passes the per-row visibility check
vacuously. -/
theorem claim_C10_witness : vis_row_ok ['2', '4', '1', '3', '2', '5', '1'] = some true :=
  (claim_C10_holds '2' ['4', '1', '3', '2', '5', '1'] (by decide) (by decide)).1

/-- Claim C9: the completeness check returns false exactly when some row
contains the marker `'?'`, and it is independent of the orchestrator: a
board containing `'?'` can still pass `check_skyscrapers`, which never
consults `check_not_finished_board`. -/
theorem claim_C9_holds :
    (∀ board : List (List Char),
      (check_not_finished_board board = false ↔ ∃ r ∈ board, '?' ∈ r)) ∧
    (check_not_finished_board qBoard = false ∧ check_skyscrapers qBoard = some true) := by
  refine ⟨?_, by decide, by decide⟩
  intro board
  induction board with
  | nil => simp [check_not_finished_board]
  | cons r rs ih =>
    by_cases hr : '?' ∈ r
    · simp [check_not_finished_board, List.all_cons, hr]
    · simp only [check_not_finished_board, List.all_cons] at ih ⊢
      simp [hr, ih]

theorem length_eq_seven {α : Type} (l : List α) (h : l.length = 7) :
    ∃ a b c d e f g, l = [a, b, c, d, e, f, g] := by
  obtain ⟨a, l, rfl⟩ := List.exists_of_length_succ l h
  have h1 : l.length = 6 := by simpa using h
  obtain ⟨b, l, rfl⟩ := List.exists_of_length_succ l h1
  have h2 : l.length = 5 := by simpa using h1
  obtain ⟨c, l, rfl⟩ := List.exists_of_length_succ l h2
  have h3 : l.length = 4 := by simpa using h2
  obtain ⟨d, l, rfl⟩ := List.exists_of_length_succ l h3
  have h4 : l.length = 3 := by simpa using h3
  obtain ⟨e, l, rfl⟩ := List.exists_of_length_succ l h4
  have h5 : l.length = 2 := by simpa using h4
  obtain ⟨f, l, rfl⟩ := List.exists_of_length_succ l h5
  have h6 : l.length = 1 := by simpa using h5
  obtain ⟨g, l, rfl⟩ := List.exists_of_length_succ l h6
  have h7 : l.length = 0 := by simpa using h6
  rw [List.length_eq_zero.mp h7]
  exact ⟨a, b, c, d, e, f, g, rfl⟩

/-- Claim C7, counterexample: on a 6-row board of 6-character rows the
column deriver does not produce one line per interior index position
1..N-2 (it always reads positions 1..5, so it emits five lines, the
last of which is the right-edge hint column, instead of four). -/
theorem claim_C7_counterexample :
    get_board_columns b6 ≠ some (spec_interior_columns b6) := by decide

/-- Claim C7, amended: for every 7-row board of 7-character rows the
column deriver produces exactly one synthetic line per interior index
position 1..5, each formed by concatenating the character at that
position from every board row top-to-bottom (so the top and bottom hint
characters become the two end characters of the derived line). -/
theorem claim_C7_amended (board : List (List Char)) (h7 : board.length = 7)
    (hrows : ∀ r ∈ board, r.length = 7) :
    get_board_columns board = some (spec_interior_columns board) := by
  obtain ⟨r0, r1, r2, r3, r4, r5, r6, rfl⟩ := length_eq_seven board h7
  obtain ⟨a0, a1, a2, a3, a4, a5, a6, rfl⟩ := length_eq_seven r0 (hrows _ (by simp))
  obtain ⟨b0, b1, b2, b3, b4, b5, b6', rfl⟩ := length_eq_seven r1 (hrows _ (by simp))
  obtain ⟨c0, c1, c2, c3, c4, c5, c6, rfl⟩ := length_eq_seven r2 (hrows _ (by simp))
  obtain ⟨d0, d1, d2, d3, d4, d5, d6, rfl⟩ := length_eq_seven r3 (hrows _ (by simp))
  obtain ⟨e0, e1, e2, e3, e4, e5, e6, rfl⟩ := length_eq_seven r4 (hrows _ (by simp))
  obtain ⟨f0, f1, f2, f3, f4, f5, f6, rfl⟩ := length_eq_seven r5 (hrows _ (by simp))
  obtain ⟨g0, g1, g2, g3, g4, g5, g6, rfl⟩ := length_eq_seven r6 (hrows _ (by simp))
  rfl

/-- Claim C7, witness: the deriver output on the example board is the
transposition of its five interior positions. -/
theorem claim_C7_witness :
    get_board_columns demoBoard = some (spec_interior_columns demoBoard) :=
  claim_C7_amended demoBoard (by decide) (by decide)

/-- Claim C8, counterexample: on a 6×6 square board, applying the column
deriver twice does not reconstruct the interior of the board (the two
applications yield five lines of five characters, while the interior is
four segments of four characters). -/
theorem claim_C8_counterexample :
    (get_board_columns b6).bind get_board_columns ≠
      some (((b6.drop 1).dropLast).map (fun r => (r.drop 1).dropLast)) := by decide

/-- Claim C8, amended: for every 7-row board of 7-character rows,
deriving columns and then deriving columns of the result reconstructs
the stripped digit segment of every interior row, in order. -/
theorem claim_C8_amended (board : List (List Char)) (h7 : board.length = 7)
    (hrows : ∀ r ∈ board, r.length = 7) :
    (get_board_columns board).bind get_board_columns =
      some (((board.drop 1).dropLast).map (fun r => (r.drop 1).dropLast)) := by
  obtain ⟨r0, r1, r2, r3, r4, r5, r6, rfl⟩ := length_eq_seven board h7
  obtain ⟨a0, a1, a2, a3, a4, a5, a6, rfl⟩ := length_eq_seven r0 (hrows _ (by simp))
  obtain ⟨b0, b1, b2, b3, b4, b5, b6', rfl⟩ := length_eq_seven r1 (hrows _ (by simp))
  obtain ⟨c0, c1, c2, c3, c4, c5, c6, rfl⟩ := length_eq_seven r2 (hrows _ (by simp))
  obtain ⟨d0, d1, d2, d3, d4, d5, d6, rfl⟩ := length_eq_seven r3 (hrows _ (by simp))
  obtain ⟨e0, e1, e2, e3, e4, e5, e6, rfl⟩ := length_eq_seven r4 (hrows _ (by simp))
  obtain ⟨f0, f1, f2, f3, f4, f5, f6, rfl⟩ := length_eq_seven r5 (hrows _ (by simp))
  obtain ⟨g0, g1, g2, g3, g4, g5, g6, rfl⟩ := length_eq_seven r6 (hrows _ (by simp))
  rfl

/-- Claim C8, witness: on the example board the double application of
the deriver returns exactly the interior row segments. -/
theorem claim_C8_witness :
    (get_board_columns demoBoard).bind get_board_columns =
      some (((demoBoard.drop 1).dropLast).map (fun r => (r.drop 1).dropLast)) :=
  claim_C8_amended demoBoard (by decide) (by decide)
